import Mathlib

/-!
bazel-cache-s3: a shallow embedding of the cache protocol handler and of startup.

The development follows `src/server.go` (the HTTP handler of the Bazel remote cache:
`ServeHTTP`, `handleGET`, `handlePUT`, `newCacheServer`) and `src/main.go`
(`parseArgs`, `main`).

Go values are embedded as follows.

* Go strings are `String`; byte sequences (`[]byte`, `groupcache.ByteView`, request and
  response bodies) are lists of byte values. A Go string may hold bytes that are not
  UTF-8; such texts are outside the embedding.
* A Go `error` is a value of `GoError`; a nil error is `none` / `Except.ok`.
* A panic is `none` in an `Option`; `middleware.Recoverer` turns it into an answer.
* The handler is stateful through its collaborators. The state it can touch is gathered
  in `cacheServer` (bucket contents, cache entries, the server log and a record of the
  calls made on the collaborators) and is passed explicitly.
* The `http.ResponseWriter` is the record `ResponseWriter`: the status once written, the
  `Content-Length` header the code set, the bytes written and the calls of the handler
  on the `net/http` helpers.
* The libraries the source calls (`net/http`, `go-chi/chi`, `pkg/errors`, `groupcache`)
  are not part of the repository; the parts of their behaviour the handler relies on are
  written out as definitions, each documented where it stands.
-/

namespace BazelCache

/-! ## Errors -/

/-- Byte sequences: every element stands for one byte. -/
abbrev Bytes := List Nat

/-- Go `error` values as the handler can tell them apart: an `awserr.RequestFailure`
(it carries the HTTP status code of the failed store request), an error created by
`errors.Wrap` of `github.com/pkg/errors` (it has a cause), and any other error. The
message is the text of the error. -/
inductive GoError where
  | requestFailure (statusCode : Nat) (message : String)
  | wrapped (message : String) (cause : GoError)
  | plain (message : String)
deriving DecidableEq, Repr

/-- The function `errors.Cause` of `github.com/pkg/errors`: follow the causes down to
the first error that has none. -/
def errorsCause : GoError → GoError
  | .wrapped _ cause => errorsCause cause
  | e => e

/-- The function `errors.Wrap` of `github.com/pkg/errors`. -/
def errorsWrap (err : GoError) (message : String) : GoError :=
  .wrapped message err

/-- The text of an error, as `err.Error()` gives it. -/
def GoError.Error : GoError → String
  | .requestFailure _ message => message
  | .wrapped message cause => message ++ ": " ++ cause.Error
  | .plain message => message

/-- The test of `handleGET` on the cause of a failed lookup:
`awsErr, ok := err.(awserr.RequestFailure); ok && awsErr.StatusCode() == http.StatusNotFound`. -/
def isStoreNotFound : GoError → Bool
  | .requestFailure statusCode _ => statusCode == 404
  | _ => false

/-! ## Requests and the response writer -/

/-- The fields of `*http.Request` that the handler and the libraries under it read:
the method, `r.URL.Path` and `r.URL.RawPath` (empty when the URL parser did not keep
one), the headers `Range`, `If-Match`, `If-None-Match` and `If-Range` (empty when
absent, as `Header.Get` gives them), and the body. `ifRangeEpoch` is the verdict of
`http.ParseTime` on the `If-Range` header: whether it parses to a time whose Unix
seconds are 0, the modification time the handler passes to `http.ServeContent`. The
headers `If-Modified-Since` and `If-Unmodified-Since` are not listed: with that
modification time `net/http` does not look at them. -/
structure Request where
  method : String
  path : String
  rawPath : String := ""
  range : String := ""
  ifMatch : String := ""
  ifNoneMatch : String := ""
  ifRange : String := ""
  ifRangeEpoch : Bool := false
  body : Bytes := []
deriving DecidableEq, Repr

/-- The calls the handlers of `server.go` make on the helpers of `net/http`. -/
inductive HttpCall where
  | notFound
  | error (message : String) (code : Nat)
  | serveContent (name : String) (content : Bytes)
deriving DecidableEq, Repr

/-- The state of an `http.ResponseWriter`: `status` is `none` until the header is
written; `contentLength` is the `Content-Length` header the code set before that (the
server may add one of its own to a short answer); `body` holds the bytes handed to
`Write` (for a `HEAD` request the server sends none of them); `multipart` tells that
the body is a `multipart/byteranges` answer, of which `body` lists the bytes of the
parts in order and leaves out the part headers and the random boundary, and with them
the `Content-Length` of such an answer. -/
structure ResponseWriter where
  status : Option Nat := none
  contentLength : Option Nat := none
  body : Bytes := []
  multipart : Bool := false
  calls : List HttpCall := []
deriving DecidableEq, Repr

/-- The bytes of an ASCII text (all texts the handler writes are ASCII). -/
def bytesOf (s : String) : Bytes :=
  s.data.map Char.toNat

/-- The method `WriteHeader`: the first call fixes the status, a later call is
superfluous and changes nothing. -/
def WriteHeader (rw : ResponseWriter) (code : Nat) : ResponseWriter :=
  match rw.status with
  | none => { rw with status := some code }
  | some _ => rw

/-- The method `Write`: writes the header with status 200 when none was written, then
appends to the body. -/
def Write (rw : ResponseWriter) (p : Bytes) : ResponseWriter :=
  let rw1 := WriteHeader rw 200
  { rw1 with body := rw1.body ++ p }

/-- Setting the `Content-Length` header: without effect once the header is written. -/
def setContentLength (rw : ResponseWriter) (n : Nat) : ResponseWriter :=
  match rw.status with
  | none => { rw with contentLength := some n }
  | some _ => rw

/-- Setting the `Content-Type` header to `multipart/byteranges`: without effect once
the header is written. -/
def setMultipart (rw : ResponseWriter) : ResponseWriter :=
  match rw.status with
  | none => { rw with multipart := true }
  | some _ => rw

/-- The status the client receives: a handler that returns without writing anything
answers 200. -/
def finalStatus (rw : ResponseWriter) : Nat :=
  rw.status.getD 200

/-- The writes of `http.Error(rw, message, code)`: the status, then the message and a
newline. -/
def writeError (rw : ResponseWriter) (message : String) (code : Nat) : ResponseWriter :=
  Write (WriteHeader rw code) (bytesOf (message ++ "\n"))

/-- The call `http.Error(rw, message, code)` of a handler. -/
def httpError (rw : ResponseWriter) (message : String) (code : Nat) : ResponseWriter :=
  writeError { rw with calls := rw.calls ++ [.error message code] } message code

/-- The call `http.NotFound(rw, r)`, which is `http.Error(rw, "404 page not found", 404)`. -/
def httpNotFound (rw : ResponseWriter) : ResponseWriter :=
  writeError { rw with calls := rw.calls ++ [.notFound] } "404 page not found" 404

/-! ## Text helpers of the Go libraries -/

/-- The function `strings.HasPrefix`. -/
def HasPrefix (s p : String) : Bool :=
  p.data.isPrefixOf s.data

/-- Splitting a list of characters at every occurrence of a separator. -/
def splitChars (sep : Char) : List Char → List (List Char)
  | [] => [[]]
  | c :: cs =>
    if c = sep then [] :: splitChars sep cs
    else
      match splitChars sep cs with
      | [] => [[c]]
      | h :: t => (c :: h) :: t

/-- The function `strings.Split(s, sep)` for a separator of one character: the empty
string splits into one empty piece. -/
def stringsSplit (s : String) (sep : Char) : List String :=
  (splitChars sep s.data).map String.mk

/-- The function `strings.Cut(s, sep)` for a separator of one character: what stands
before and after its first occurrence, `none` when it does not occur. -/
def cutAt (sep : Char) : List Char → Option (List Char × List Char)
  | [] => none
  | c :: cs =>
    if c = sep then some ([], cs)
    else
      match cutAt sep cs with
      | some (a, b) => some (c :: a, b)
      | none => none

/-- The white space `textproto.TrimString` removes: space, tab, line feed and
carriage return. -/
def isASCIISpace (c : Char) : Bool :=
  c == ' ' || c == Char.ofNat 9 || c == Char.ofNat 10 || c == Char.ofNat 13

/-- The function `textproto.TrimString`. -/
def TrimString (s : List Char) : List Char :=
  ((s.dropWhile isASCIISpace).reverse.dropWhile isASCIISpace).reverse

/-- The value of a run of decimal digits, `none` when another character occurs. -/
def digitsValue : List Char → Nat → Option Nat
  | [], acc => some acc
  | c :: cs, acc =>
    if c.isDigit then digitsValue cs (10 * acc + (c.toNat - 48)) else none

/-- The function `strconv.ParseInt(s, 10, 64)`: an optional sign and at least one
digit, `none` for every error, values outside 64 bits included. -/
def ParseInt (s : List Char) : Option Int :=
  match s with
  | [] => none
  | c :: cs =>
    let ds := if c = '+' ∨ c = '-' then cs else s
    if ds = [] then none
    else
      match digitsValue ds 0 with
      | none => none
      | some n =>
        if c = '-' then (if n ≤ 2 ^ 63 then some (-(n : Int)) else none)
        else (if n < 2 ^ 63 then some (n : Int) else none)

/-! ## `http.ServeContent` -/

/-- The results of the precondition checks of `net/http`. -/
inductive condResult where
  | condNone
  | condTrue
  | condFalse
deriving DecidableEq, Repr

/-- The characters `scanETag` admits inside an entity tag. -/
def etagChar (c : Char) : Bool :=
  c.toNat == 33 || (35 ≤ c.toNat && c.toNat ≤ 126) || 128 ≤ c.toNat

/-- The loop of `scanETag` after the opening quote: the tag up to its closing quote
and what remains, `none` when the tag does not close. -/
def scanETagTail : List Char → Option (List Char × List Char)
  | [] => none
  | c :: cs =>
    if etagChar c then
      match scanETagTail cs with
      | some (e, remain) => some (c :: e, remain)
      | none => none
    else if c = Char.ofNat 34 then some ([c], cs)
    else none

/-- The function `scanETag` of `net/http`: the entity tag at the head of the text,
with its `W/` mark if any, and what remains; both empty when there is none. -/
def scanETag (s : List Char) : List Char × List Char :=
  let t := TrimString s
  let weak := ['W', '/'].isPrefixOf t
  let rest := if weak then t.drop 2 else t
  match rest with
  | [] => ([], [])
  | q :: tl =>
    if q = Char.ofNat 34 then
      match scanETagTail tl with
      | some (e, remain) => ((if weak then ['W', '/'] else []) ++ q :: e, remain)
      | none => ([], [])
    else ([], [])

/-- The loop of `checkIfMatch`. The handler sets no `Etag` header, so no entity tag of
the request matches and only `*` makes the condition true. Every round removes at
least one character, so the fuel of `checkIfMatch` is never used up. -/
def checkIfMatchLoop : Nat → List Char → condResult
  | 0, _ => .condFalse
  | fuel + 1, im =>
    match TrimString im with
    | [] => .condFalse
    | c :: cs =>
      if c = ',' then checkIfMatchLoop fuel cs
      else if c = '*' then .condTrue
      else
        match scanETag (c :: cs) with
        | ([], _) => .condFalse
        | (_ :: _, remain) => checkIfMatchLoop fuel remain

/-- The function `checkIfMatch` of `net/http`. -/
def checkIfMatch (r : Request) : condResult :=
  if r.ifMatch = "" then .condNone
  else checkIfMatchLoop (r.ifMatch.data.length + 1) r.ifMatch.data

/-- The loop of `checkIfNoneMatch`: a `*` makes the condition false; with no `Etag`
header set, no entity tag does. -/
def checkIfNoneMatchLoop : Nat → List Char → condResult
  | 0, _ => .condTrue
  | fuel + 1, buf =>
    match TrimString buf with
    | [] => .condTrue
    | c :: cs =>
      if c = ',' then checkIfNoneMatchLoop fuel cs
      else if c = '*' then .condFalse
      else
        match scanETag (c :: cs) with
        | ([], _) => .condTrue
        | (_ :: _, remain) => checkIfNoneMatchLoop fuel remain

/-- The function `checkIfNoneMatch` of `net/http`. -/
def checkIfNoneMatch (r : Request) : condResult :=
  if r.ifNoneMatch = "" then .condNone
  else checkIfNoneMatchLoop (r.ifNoneMatch.data.length + 1) r.ifNoneMatch.data

/-- The function `checkIfRange` of `net/http`, for a response without `Etag` header
and the Unix epoch as modification time: an entity tag never matches, a date matches
when it is the epoch. -/
def checkIfRange (r : Request) : condResult :=
  if r.method ≠ "GET" ∧ r.method ≠ "HEAD" then .condNone
  else if r.ifRange = "" then .condNone
  else if (scanETag r.ifRange.data).1 ≠ [] then .condFalse
  else if r.ifRangeEpoch then .condTrue
  else .condFalse

/-- The outcome of `checkPreconditions`: the answer is 412, or 304, or the content is
to be served with the `Range` header that is left. -/
inductive Precondition where
  | failed
  | notModified
  | proceed (rangeHeader : String)
deriving DecidableEq, Repr

/-- The function `checkPreconditions` of `net/http` for the Unix epoch as modification
time, which `net/http` takes for no time at all: `If-Unmodified-Since` and
`If-Modified-Since` then decide nothing. -/
def checkPreconditions (r : Request) : Precondition :=
  if checkIfMatch r = .condFalse then .failed
  else
    match checkIfNoneMatch r with
    | .condFalse => if r.method = "GET" ∨ r.method = "HEAD" then .notModified else .failed
    | _ => .proceed (if r.range ≠ "" ∧ checkIfRange r = .condFalse then "" else r.range)

/-- A byte range of `net/http`. -/
structure httpRange where
  start : Nat
  length : Nat
deriving DecidableEq, Repr

/-- The two errors of `parseRange`. -/
inductive RangeError where
  | invalid
  | noOverlap
deriving DecidableEq, Repr

/-- What one piece of a `Range` header yields in `parseRange`. -/
inductive SpecResult where
  | skip
  | invalid
  | noOverlap
  | range (ra : httpRange)
deriving DecidableEq, Repr

/-- The body of the loop of `parseRange` on one piece of the header, for content of
the given size. -/
def parseSpec (size : Nat) (piece : List Char) : SpecResult :=
  let ra := TrimString piece
  if ra = [] then .skip
  else
    match cutAt '-' ra with
    | none => .invalid
    | some (s, e) =>
      let first := TrimString s
      let last := TrimString e
      if first = [] then
        if last = [] ∨ last.head? = some '-' then .invalid
        else
          match ParseInt last with
          | none => .invalid
          | some i =>
            if i < 0 then .invalid
            else .range { start := size - min i.toNat size, length := min i.toNat size }
      else
        match ParseInt first with
        | none => .invalid
        | some i =>
          if i < 0 then .invalid
          else if size ≤ i.toNat then .noOverlap
          else if last = [] then .range { start := i.toNat, length := size - i.toNat }
          else
            match ParseInt last with
            | none => .invalid
            | some j =>
              if j < i then .invalid
              else
                .range { start := i.toNat,
                         length := (if size ≤ j.toNat then size - 1 else j.toNat) - i.toNat + 1 }

/-- The loop of `parseRange` over the pieces of the header. -/
def parseRangeLoop (size : Nat) :
    List (List Char) → List httpRange → Bool → Except RangeError (List httpRange)
  | [], ranges, noOverlap =>
    if noOverlap ∧ ranges = [] then .error .noOverlap else .ok ranges
  | piece :: pieces, ranges, noOverlap =>
    match parseSpec size piece with
    | .skip => parseRangeLoop size pieces ranges noOverlap
    | .invalid => .error .invalid
    | .noOverlap => parseRangeLoop size pieces ranges true
    | .range ra => parseRangeLoop size pieces (ranges ++ [ra]) noOverlap

/-- The function `parseRange` of `net/http`. -/
def parseRange (s : String) (size : Nat) : Except RangeError (List httpRange) :=
  if s = "" then .ok []
  else if HasPrefix s "bytes=" then parseRangeLoop size (splitChars ',' (s.data.drop 6)) [] false
  else .error .invalid

/-- The function `sumRangesSize` of `net/http`. -/
def sumRangesSize (ranges : List httpRange) : Nat :=
  (ranges.map fun ra => ra.length).sum

/-- The copy of `http.ServeContent` to the response: nothing for a `HEAD` request. -/
def copyBody (rw : ResponseWriter) (r : Request) (p : Bytes) : ResponseWriter :=
  if r.method = "HEAD" then rw else Write rw p

/-- The end of `http.ServeContent`: the whole content with status 200 when no range is
left, the bytes of the range with status 206 for one range, a multipart answer with
status 206 for several. -/
def sendRanges (rw : ResponseWriter) (r : Request) (content : Bytes) :
    List httpRange → ResponseWriter
  | [] => copyBody (WriteHeader (setContentLength rw content.length) 200) r content
  | [ra] =>
    copyBody (WriteHeader (setContentLength rw ra.length) 206) r
      ((content.drop ra.start).take ra.length)
  | ra :: rb :: more =>
    copyBody (WriteHeader (setMultipart rw) 206) r
      (((ra :: rb :: more).map fun x => (content.drop x.start).take x.length).flatten)

/-- The call `http.ServeContent(rw, r, name, time.Unix(0, 0), content)`: the
preconditions of the request are checked first (412 or 304 end the call), then the
`Range` header is read (416 when it is malformed or matches nothing), then the content
or the ranges asked for are sent. -/
def ServeContent (rw : ResponseWriter) (r : Request) (name : String) (content : Bytes) :
    ResponseWriter :=
  let rw1 := { rw with calls := rw.calls ++ [.serveContent name content] }
  match checkPreconditions r with
  | .failed => WriteHeader rw1 412
  | .notModified => WriteHeader rw1 304
  | .proceed rangeHeader =>
    match parseRange rangeHeader content.length with
    | .error .invalid => writeError rw1 "invalid range" 416
    | .error .noOverlap =>
      if content.length = 0 then sendRanges rw1 r content []
      else writeError rw1 "invalid range: failed to overlap" 416
    | .ok ranges =>
      sendRanges rw1 r content (if content.length < sumRangesSize ranges then [] else ranges)

/-! ## The collaborators: object store and cache group -/

/-- The calls the server makes on its collaborators. -/
inductive BackendCall where
  | groupGet (key : String)
  | s3Get (key : String)
  | s3Put (key : String) (body : Bytes)
deriving DecidableEq, Repr

/-- Modelled from the spec: the type `S3Manager` is not among the sources. It is the
Object Store Client of the spec, a durable key/value store: `bucket` holds the objects
(the most recent write first) and `fault`, when set, is the error with which the store
currently rejects every request. -/
structure S3Manager where
  bucket : List (String × Bytes) := []
  fault : Option GoError := none
deriving DecidableEq, Repr

/-- The cache tier (`groupcache.Group`): the entries it holds. -/
structure Group where
  mainCache : List (String × Bytes) := []
deriving DecidableEq, Repr

/-- The state the handler of `server.go` works on: the fields `s3m` and `group` of the
Go struct, the record of calls made on the collaborators, and the lines the handler
writes with `log.Println`. -/
structure cacheServer where
  s3m : S3Manager
  group : Group
  calls : List BackendCall := []
  log : List String := []
deriving DecidableEq, Repr

/-- The function `newCacheServer`: a fresh group (nothing cached) over the given store. -/
def newCacheServer (s3m : S3Manager) : cacheServer :=
  { s3m := s3m, group := { mainCache := [] }, calls := [], log := [] }

/-- Modelled from the spec: `S3Manager.Getter` is not among the sources. Spec:
`Get(key) -> bytes | NotFound`, "error is distinguishably not found vs other". A store
that rejects requests returns its fault; an absent key is a request failure with
status 404. -/
def S3Manager.Getter (c : cacheServer) (key : String) : cacheServer × Except GoError Bytes :=
  let c1 := { c with calls := c.calls ++ [.s3Get key] }
  match c.s3m.fault with
  | some e => (c1, .error e)
  | none =>
    match c.s3m.bucket.lookup key with
    | some v => (c1, .ok v)
    | none => (c1, .error (.requestFailure 404 "NoSuchKey"))

/-- Modelled from the spec: `S3Manager.PutReader` is not among the sources. Spec:
`Put(key, body) -> error`; the Backing Object is "created/overwritten by PUT". A store
that rejects requests keeps its objects and returns its fault. -/
def S3Manager.PutReader (c : cacheServer) (key : String) (body : Bytes) :
    cacheServer × Option GoError :=
  let c1 := { c with calls := c.calls ++ [.s3Put key body] }
  match c.s3m.fault with
  | some e => (c1, some e)
  | none => ({ c1 with s3m := { c1.s3m with bucket := (key, body) :: c1.s3m.bucket } }, none)

/-- The call `c.group.Get(ctx, key, sink)` of `groupcache`, with the loader
`s3m.Getter` that `newCacheServer` installs: an entry of the cache is returned as it
is; on a miss the loader runs, and a value it loads is kept in the cache. -/
def Group.Get (c : cacheServer) (key : String) : cacheServer × Except GoError Bytes :=
  let c1 := { c with calls := c.calls ++ [.groupGet key] }
  match c.group.mainCache.lookup key with
  | some v => (c1, .ok v)
  | none =>
    match S3Manager.Getter c1 key with
    | (c2, .ok v) => ({ c2 with group := { mainCache := (key, v) :: c2.group.mainCache } }, .ok v)
    | (c2, .error e) => (c2, .error e)

/-! ## The handlers of `server.go` -/

/-- The handler returned by `handleGET`. The key is `r.URL.Path[1:]`, a panic on the
empty path (a path a route matched begins with `/`, the one byte the slice drops). The
view `b` stays empty when the lookup fails. In the branch of an error that is not a
not-found, the source has no `return` after `http.Error`, so `http.ServeContent` runs
as well. -/
def handleGET (c : cacheServer) (r : Request) (rw : ResponseWriter) :
    Option (cacheServer × ResponseWriter) :=
  if r.path = "" then none
  else
    let key := r.path.drop 1
    let (c1, res) := Group.Get c key
    let b : Bytes := match res with
      | .ok v => v
      | .error _ => []
    let err : Option GoError := match res with
      | .ok _ => none
      | .error e => some (errorsCause e)
    match err with
    | some e =>
      if isStoreNotFound e then
        some (c1, httpNotFound rw)
      else
        let c2 := { c1 with log := c1.log ++ [(errorsWrap e "http get request failed").Error] }
        let rw1 := httpError rw "failed to retrieve key" 500
        some (c2, ServeContent rw1 r key b)
    | none => some (c1, ServeContent rw r key b)

/-- The handler returned by `handlePUT`: the key is `r.URL.Path[1:]` as in `handleGET`,
the result of `PutReader` is dropped and nothing is written to the response. -/
def handlePUT (c : cacheServer) (r : Request) (rw : ResponseWriter) :
    Option (cacheServer × ResponseWriter) :=
  if r.path = "" then none
  else
    let key := r.path.drop 1
    let (c1, _) := S3Manager.PutReader c key r.body
    some (c1, rw)

/-! ## The peer endpoint of `groupcache` -/

/-- The base-128 encoding of a length in a protocol buffer; the fuel is the number of
bytes at most. -/
def varint : Nat → Nat → Bytes
  | 0, n => [n % 128]
  | fuel + 1, n => if n < 128 then [n] else (n % 128 + 128) :: varint fuel (n / 128)

/-- The message `GetResponse` of `groupcache` with its value set: the tag of field 1,
the length of the value, the value. -/
def protoGetResponse (value : Bytes) : Bytes :=
  10 :: varint value.length value.length ++ value

/-- The method `ServeHTTP` of `groupcache.HTTPPool` with the base path `/_groupcache/`
that `NewHTTPPoolOpts(self, nil)` sets. It panics when `r.URL.Path` does not begin
with the base path. Otherwise what follows is `<group>/<key>`: a request without the
second part is a bad request, a group other than `bazelcache` is unknown, and the value
of the key is looked up in the group and sent as a `GetResponse`, or the text of the
error with status 500. -/
def gpoolServeHTTP (c : cacheServer) (r : Request) (rw : ResponseWriter) :
    Option (cacheServer × ResponseWriter) :=
  if HasPrefix r.path "/_groupcache/" then
    match cutAt '/' (r.path.data.drop 13) with
    | none => some (c, writeError rw "bad request" 400)
    | some (groupName, key) =>
      if String.mk groupName = "bazelcache" then
        match Group.Get c (String.mk key) with
        | (c1, .ok v) => some (c1, Write rw (protoGetResponse v))
        | (c1, .error e) => some (c1, writeError rw e.Error 500)
      else some (c, writeError rw ("no such group: " ++ String.mk groupName) 404)
  else none

/-! ## Routing: `ServeHTTP` -/

/-- The handlers `ServeHTTP` mounts on the router. -/
inductive Handler where
  | gpool
  | handleGET
  | handlePUT
deriving DecidableEq, Repr

/-- One registration on the `chi` router: the methods it answers, the pattern and the
handler. -/
structure Endpoint where
  methods : List String
  pattern : String
  handler : Handler
deriving DecidableEq, Repr

/-- The methods `chi` knows (its `methodMap`). `m.Handle` registers a handler for all
of them; a request with any other method token is answered 405 before the routes are
looked at (`routeHTTP`: "Check if method is supported by chi"). -/
def mALL : List String :=
  ["CONNECT", "DELETE", "GET", "HEAD", "OPTIONS", "PATCH", "POST", "PUT", "TRACE"]

/-- The registrations of `ServeHTTP`, in the order of the source:
`m.Handle("/_groupcache", c.gpool)`, `m.Get("/ac/*", ...)`, `m.Get("/cas/*", ...)`,
`m.Put("/ac/*", ...)`, `m.Put("/cas/*", ...)`. -/
def routes : List Endpoint :=
  [ { methods := mALL, pattern := "/_groupcache", handler := .gpool },
    { methods := ["GET"], pattern := "/ac/*", handler := .handleGET },
    { methods := ["GET"], pattern := "/cas/*", handler := .handleGET },
    { methods := ["PUT"], pattern := "/ac/*", handler := .handlePUT },
    { methods := ["PUT"], pattern := "/cas/*", handler := .handlePUT } ]

/-- The path `chi` routes on (`routeHTTP` and `middleware.GetHead` alike):
`r.URL.RawPath` when it is set, `r.URL.Path` otherwise. -/
def routePath (r : Request) : String :=
  if r.rawPath ≠ "" then r.rawPath else r.path

/-- Whether a `chi` pattern matches a path: a pattern that ends in `*` matches every
path that begins with what stands before the `*` (the wildcard may be empty); any
other pattern of the source matches only the path equal to it. -/
def patternMatches (pattern path : String) : Bool :=
  match pattern.data.reverse with
  | '*' :: rest => rest.reverse.isPrefixOf path.data
  | _ => pattern == path

/-- The handler registered for a method and a path, if any (`tree.FindRoute`). -/
def findRoute (rs : List Endpoint) (method path : String) : Option Handler :=
  (rs.find? fun e => patternMatches e.pattern path && e.methods.contains method).map
    fun e => e.handler

/-- Whether some registration matches the path, whatever its methods: `chi` then
answers 405 rather than 404 (`rctx.methodNotAllowed`). -/
def pathRegistered (rs : List Endpoint) (path : String) : Bool :=
  rs.any fun e => patternMatches e.pattern path

/-- The middleware `middleware.GetHead`: a `HEAD` request for which no `HEAD` route
exists is routed as a `GET`; the request itself keeps its method. -/
def GetHead (rs : List Endpoint) (r : Request) : String :=
  if r.method = "HEAD" ∧ findRoute rs "HEAD" (routePath r) = none then "GET" else r.method

/-- Where the router sends a request. -/
inductive Dispatch where
  | handler (h : Handler)
  | notFound
  | methodNotAllowed
deriving DecidableEq, Repr

/-- The method `routeHTTP` of the `chi` router: a method outside `methodMap` is not
allowed; otherwise the route is looked up, and a miss is a 405 when the path is
registered for other methods and a 404 when it is not. -/
def routeHTTP (rs : List Endpoint) (routeMethod path : String) : Dispatch :=
  if mALL.contains routeMethod then
    match findRoute rs routeMethod path with
    | some h => .handler h
    | none => if pathRegistered rs path then .methodNotAllowed else .notFound
  else .methodNotAllowed

/-- The dispatch of `ServeHTTP`: `GetHead` first, then the router, over the routes of
the source and the routing path of the request. -/
def dispatch (r : Request) : Dispatch :=
  routeHTTP routes (GetHead routes r) (routePath r)

/-- The default 405 answer of `chi`: `w.WriteHeader(405); w.Write(nil)`. -/
def methodNotAllowedHandler (rw : ResponseWriter) : ResponseWriter :=
  Write (WriteHeader rw 405) []

/-- The middleware `middleware.Recoverer` around a handler: the answer of the handler
when it returns; when it panics, status 500 (the stack trace goes to standard error).
The handlers of this server panic before they touch state or response. -/
def Recoverer (c : cacheServer) (rw : ResponseWriter) :
    Option (cacheServer × ResponseWriter) → cacheServer × ResponseWriter
  | some out => out
  | none => (c, WriteHeader rw 500)

/-- The method `cacheServer.ServeHTTP`. The access log of `middleware.Logger` goes to
standard output and is left out. -/
def ServeHTTP (c : cacheServer) (r : Request) (rw : ResponseWriter) :
    cacheServer × ResponseWriter :=
  match dispatch r with
  | .handler .gpool => Recoverer c rw (gpoolServeHTTP c r rw)
  | .handler .handleGET => Recoverer c rw (handleGET c r rw)
  | .handler .handlePUT => Recoverer c rw (handlePUT c r rw)
  | .notFound => (c, httpNotFound rw)
  | .methodNotAllowed => (c, methodNotAllowedHandler rw)

/-! ## Startup: `main.go` -/

/-- The command-line flags of `main.go`. -/
structure Flags where
  bind : String := "127.0.0.1:8080"
  self : String := "http://localhost:8080"
  manualPeers : String := ""
  srvDNSName : String := ""
  bucket : String := ""
deriving DecidableEq, Repr

/-- The fatal errors of `parseArgs`, one for each `log.Fatal` of the source. -/
inductive Fatal where
  | bucketRequired
  | selfInvalid (self : String) (err : String)
  | peersExclusive
  | peerInvalid (peer : String)
deriving DecidableEq, Repr

/-- The loop of `parseArgs` over the peers: the first one that does not parse is fatal. -/
def checkPeers (urlParse : String → Option String) : List String → Except Fatal Unit
  | [] => .ok ()
  | p :: ps =>
    match urlParse p with
    | some _ => .error (.peerInvalid p)
    | none => checkPeers urlParse ps

/-- The function `parseArgs`. `log.Fatal` ends the process, which is the `error` case.
`urlParse` stands for `url.Parse` of the standard library: `none` when the text parses,
the text of the error otherwise. -/
def parseArgs (urlParse : String → Option String) (f : Flags) : Except Fatal Unit :=
  if f.bucket = "" then .error .bucketRequired
  else
    match urlParse f.self with
    | some err => .error (.selfInvalid f.self err)
    | none =>
      if f.manualPeers ≠ "" ∧ f.srvDNSName ≠ "" then .error .peersExclusive
      else
        let peers := stringsSplit f.manualPeers ','
        if peers.length > 0 then checkPeers urlParse peers else .ok ()

/-- What `main` does after `parseArgs`, in order. -/
inductive StartupEvent where
  | newS3 (bucket : String)
  | newGroup
  | newHTTPPool (self : String)
  | setPeers (peers : List String)
  | discoverPeers (self : String) (srvDNSName : String)
  | listenAndServe (bind : String)
deriving DecidableEq, Repr

/-- Modelled from the spec: the function `StaticPeers` is not among the sources. Spec,
static strategy: the peer set is "fixed for process lifetime; pushed once via
`SetPeers`". -/
def StaticPeers (peers : List String) : List StartupEvent :=
  [.setPeers peers]

/-- The function `main`: a fatal error of `parseArgs` ends the process before anything
else happens; otherwise the store client, the group and the pool are created, the
peers are set up by the strategy the flags select, and the listener is bound. -/
def main (urlParse : String → Option String) (f : Flags) : Except Fatal (List StartupEvent) :=
  match parseArgs urlParse f with
  | .error e => .error e
  | .ok _ =>
    let peerSetup : List StartupEvent :=
      if f.manualPeers ≠ "" then
        let peers := stringsSplit f.manualPeers ','
        StaticPeers (peers ++ [f.self])
      else if f.srvDNSName ≠ "" then [.discoverPeers f.self f.srvDNSName]
      else []
    .ok ([.newS3 f.bucket, .newGroup, .newHTTPPool f.self] ++ peerSetup ++
      [.listenAndServe f.bind])

/-! ## The words of the claims -/

/-- The dispatch table of the routing claim, read over the methods the router knows and
the path it routes on: the peer path with any of these methods goes to the peer
handler; `GET` or `HEAD` under `/ac/` or `/cas/` is the read path; `PUT` there is the
write path; anything else is a protocol error. -/
def dispatchTable (r : Request) : Dispatch :=
  if mALL.contains r.method then
    if routePath r = "/_groupcache" then .handler .gpool
    else if (r.method = "GET" ∨ r.method = "HEAD") ∧
        (HasPrefix (routePath r) "/ac/" ∨ HasPrefix (routePath r) "/cas/") then
      .handler .handleGET
    else if r.method = "PUT" ∧
        (HasPrefix (routePath r) "/ac/" ∨ HasPrefix (routePath r) "/cas/") then
      .handler .handlePUT
    else if HasPrefix (routePath r) "/ac/" ∨ HasPrefix (routePath r) "/cas/" then
      .methodNotAllowed
    else .notFound
  else .methodNotAllowed

/-- What happens to the server between two moments: it serves a request, or the store
starts or stops rejecting requests. -/
inductive Step where
  | request (r : Request)
  | storeFault (fault : Option GoError)
deriving DecidableEq, Repr

/-- The state after one step. -/
def Step.apply (c : cacheServer) : Step → cacheServer
  | .request r => (ServeHTTP c r {}).1
  | .storeFault fault => { c with s3m := { c.s3m with fault := fault } }

/-- The state after a sequence of steps, one after the other. -/
def serveAll (c : cacheServer) : List Step → cacheServer
  | [] => c
  | s :: steps => serveAll (s.apply c) steps

/-- A step that writes to the key: a request the router sends to the write path whose
path without its leading slash is the key. -/
def Step.writesTo (key : String) : Step → Bool
  | .request r => decide (dispatch r = .handler .handlePUT ∧ r.path.drop 1 = key)
  | .storeFault _ => false

/-- The states of the server that steps can produce from a new server over any store. -/
inductive Reachable : cacheServer → Prop where
  | init (s3m : S3Manager) : Reachable (newCacheServer s3m)
  | step (c : cacheServer) (s : Step) : Reachable c → Reachable (s.apply c)

/-- An error whose root cause is `root`: `root` wrapped by `errors.Wrap` once for each
message of the list, the first message outermost. -/
def wrappedBy : List String → GoError → GoError
  | [], root => root
  | message :: messages, root => errorsWrap (wrappedBy messages root) message

/-- A request for which `http.ServeContent` sends the content of the given size in
full: its `If-Match` does not fail, its `If-None-Match` does not match, and either no
byte range is applied (there is no `Range` header, or `If-Range` sets it aside, or it
matches nothing of empty content, or it asks for more bytes than there are) or the one
range applied is the whole content. -/
def servedInFull (r : Request) (size : Nat) : Bool :=
  match checkPreconditions r with
  | .proceed rangeHeader =>
    match parseRange rangeHeader size with
    | .ok ranges =>
      decide ((if size < sumRangesSize ranges then [] else ranges) = []) ||
        decide ((if size < sumRangesSize ranges then [] else ranges) =
          [{ start := 0, length := size }])
    | .error .noOverlap => size == 0
    | .error .invalid => false
  | _ => false

/-- The state keeps `body` for `key`: the store holds `body` under `key`, and the cache
tier holds nothing under `key` or holds `body`. -/
def keepsValue (key : String) (body : Bytes) (c : cacheServer) : Prop :=
  c.s3m.bucket.lookup key = some body ∧
  (c.group.mainCache.lookup key = none ∨ c.group.mainCache.lookup key = some body)

/-! ## Lemmas on keys and routing -/

theorem drop_slash_ac (rest : String) : ("/ac/" ++ rest).drop 1 = "ac/" ++ rest := by
  apply String.ext
  simp

theorem drop_slash_cas (rest : String) : ("/cas/" ++ rest).drop 1 = "cas/" ++ rest := by
  apply String.ext
  simp

theorem key_of_path (path rest : String)
    (hp : path = "/ac/" ++ rest ∨ path = "/cas/" ++ rest) :
    path.drop 1 = "ac/" ++ rest ∨ path.drop 1 = "cas/" ++ rest := by
  rcases hp with h | h
  · exact Or.inl (h ▸ drop_slash_ac rest)
  · exact Or.inr (h ▸ drop_slash_cas rest)

theorem path_ne_empty (path rest : String)
    (hp : path = "/ac/" ++ rest ∨ path = "/cas/" ++ rest) : path ≠ "" := by
  intro h
  have hd : path.data = [] := by rw [h]
  rcases hp with h1 | h1 <;> rw [h1] at hd <;> simp at hd

theorem patternMatches_ac (p : String) : patternMatches "/ac/*" p = HasPrefix p "/ac/" := rfl

theorem patternMatches_cas (p : String) : patternMatches "/cas/*" p = HasPrefix p "/cas/" := rfl

theorem patternMatches_gc (p : String) :
    patternMatches "/_groupcache" p = ("/_groupcache" == p) := rfl

theorem route_eq (m p : String) :
    routeHTTP routes (if m = "HEAD" ∧ findRoute routes "HEAD" p = none then "GET" else m) p =
      if mALL.contains m then
        if p = "/_groupcache" then .handler .gpool
        else if (m = "GET" ∨ m = "HEAD") ∧ (HasPrefix p "/ac/" ∨ HasPrefix p "/cas/") then
          .handler .handleGET
        else if m = "PUT" ∧ (HasPrefix p "/ac/" ∨ HasPrefix p "/cas/") then .handler .handlePUT
        else if HasPrefix p "/ac/" ∨ HasPrefix p "/cas/" then .methodNotAllowed
        else .notFound
      else .methodNotAllowed := by
  simp only [routeHTTP, findRoute, routes, pathRegistered,
    List.find?, List.any, patternMatches_ac, patternMatches_cas, patternMatches_gc]
  by_cases hg : p = "/_groupcache"
  · subst hg
    simp [mALL, HasPrefix]
    by_cases hm : m = "CONNECT" ∨ m = "DELETE" ∨ m = "GET" ∨ m = "HEAD" ∨ m = "OPTIONS" ∨
        m = "PATCH" ∨ m = "POST" ∨ m = "PUT" ∨ m = "TRACE"
    · rcases hm with h | h | h | h | h | h | h | h | h <;> subst h <;> simp
    · simp only [not_or] at hm
      obtain ⟨h1, h2, h3, h4, h5, h6, h7, h8, h9⟩ := hm
      simp [h1, h2, h3, h4, h5, h6, h7, h8, h9]
  · have hg2 : ("/_groupcache" == p) = false := by
      simp only [beq_eq_false_iff_ne, ne_eq]
      exact fun h => hg h.symm
    simp only [hg2, hg]
    cases ha : HasPrefix p "/ac/" <;> cases hc : HasPrefix p "/cas/" <;>
      by_cases h1 : m = "GET" <;> by_cases h2 : m = "HEAD" <;> by_cases h3 : m = "PUT" <;>
      simp_all [mALL]

theorem dispatch_eq (r : Request) : dispatch r = dispatchTable r := by
  unfold dispatch dispatchTable GetHead
  exact route_eq r.method (routePath r)

theorem not_peer_path (p : String)
    (h : HasPrefix p "/ac/" = true ∨ HasPrefix p "/cas/" = true) : p ≠ "/_groupcache" := by
  intro hp
  subst hp
  revert h
  decide

theorem dispatch_get (r : Request) (hm : r.method = "GET")
    (h : HasPrefix (routePath r) "/ac/" = true ∨ HasPrefix (routePath r) "/cas/" = true) :
    dispatch r = .handler .handleGET := by
  rw [dispatch_eq]
  simp [dispatchTable, hm, not_peer_path (routePath r) h, h, mALL]

theorem dispatch_put (r : Request) (hm : r.method = "PUT")
    (h : HasPrefix (routePath r) "/ac/" = true ∨ HasPrefix (routePath r) "/cas/" = true) :
    dispatch r = .handler .handlePUT := by
  rw [dispatch_eq]
  simp [dispatchTable, hm, not_peer_path (routePath r) h, h, mALL]

theorem serve_get (c : cacheServer) (r : Request) (rw : ResponseWriter) (hm : r.method = "GET")
    (h : HasPrefix (routePath r) "/ac/" = true ∨ HasPrefix (routePath r) "/cas/" = true) :
    ServeHTTP c r rw = Recoverer c rw (handleGET c r rw) := by
  simp [ServeHTTP, dispatch_get r hm h]

theorem serve_put (c : cacheServer) (r : Request) (rw : ResponseWriter) (hm : r.method = "PUT")
    (h : HasPrefix (routePath r) "/ac/" = true ∨ HasPrefix (routePath r) "/cas/" = true) :
    ServeHTTP c r rw = Recoverer c rw (handlePUT c r rw) := by
  simp [ServeHTTP, dispatch_put r hm h]

/-! ## Lemmas on the collaborators and the handlers -/

theorem errorsCause_wrappedBy (messages : List String) (root : GoError)
    (h : ∀ m e, root ≠ .wrapped m e) : errorsCause (wrappedBy messages root) = root := by
  induction messages with
  | nil =>
    cases root with
    | wrapped m e => exact absurd rfl (h m e)
    | requestFailure s m => rfl
    | plain m => rfl
  | cons m ms ih => simpa [wrappedBy, errorsWrap, errorsCause] using ih

theorem Getter_frame (c : cacheServer) (key : String) :
    (S3Manager.Getter c key).1 = { c with calls := c.calls ++ [.s3Get key] } := by
  unfold S3Manager.Getter
  cases c.s3m.fault <;> simp
  cases c.s3m.bucket.lookup key <;> simp

theorem Group_Get_log (c : cacheServer) (key : String) : (Group.Get c key).1.log = c.log := by
  unfold Group.Get
  cases hc : c.group.mainCache.lookup key
  · simp only
    have h := Getter_frame { c with calls := c.calls ++ [.groupGet key] } key
    rcases hg : S3Manager.Getter { c with calls := c.calls ++ [.groupGet key] } key with ⟨c2, res⟩
    rw [hg] at h
    cases res <;> simp_all
  · simp

theorem Group_Get_calls (c : cacheServer) (key : String) :
    ∃ more, (Group.Get c key).1.calls = c.calls ++ BackendCall.groupGet key :: more := by
  unfold Group.Get
  cases hc : c.group.mainCache.lookup key
  · simp only
    have h := Getter_frame { c with calls := c.calls ++ [.groupGet key] } key
    rcases hg : S3Manager.Getter { c with calls := c.calls ++ [.groupGet key] } key with ⟨c2, res⟩
    rw [hg] at h
    refine ⟨[.s3Get key], ?_⟩
    cases res <;> simp_all
  · exact ⟨[], by simp⟩

/-- The read handler on a failed lookup that is not a not-found: whatever the error and
the state, the writes on the response are those of `http.Error` followed by
`http.ServeContent` over the empty view. -/
theorem handleGET_failure (c c1 : cacheServer) (r : Request) (rw : ResponseWriter) (e : GoError)
    (hpath : r.path ≠ "")
    (hget : Group.Get c (r.path.drop 1) = (c1, .error e))
    (hne : isStoreNotFound (errorsCause e) = false) :
    handleGET c r rw =
      some ({ c1 with
          log := c1.log ++ [(errorsWrap (errorsCause e) "http get request failed").Error] },
        ServeContent (httpError rw "failed to retrieve key" 500) r (r.path.drop 1) []) := by
  simp [handleGET, hpath, hget, hne]

theorem handleGET_not_found (c c1 : cacheServer) (r : Request) (rw : ResponseWriter) (e : GoError)
    (hpath : r.path ≠ "")
    (hget : Group.Get c (r.path.drop 1) = (c1, .error e))
    (hnf : isStoreNotFound (errorsCause e) = true) :
    handleGET c r rw = some (c1, httpNotFound rw) := by
  simp [handleGET, hpath, hget, hnf]

theorem handleGET_ok (c c1 : cacheServer) (r : Request) (rw : ResponseWriter) (v : Bytes)
    (hpath : r.path ≠ "")
    (hget : Group.Get c (r.path.drop 1) = (c1, .ok v)) :
    handleGET c r rw = some (c1, ServeContent rw r (r.path.drop 1) v) := by
  simp [handleGET, hpath, hget]

theorem handlePUT_eq (c : cacheServer) (r : Request) (rw : ResponseWriter) (hpath : r.path ≠ "") :
    handlePUT c r rw = some ((S3Manager.PutReader c (r.path.drop 1) r.body).1, rw) := by
  simp [handlePUT, hpath]

theorem sendRanges_calls (rw : ResponseWriter) (r : Request) (content : Bytes)
    (ranges : List httpRange) : (sendRanges rw r content ranges).calls = rw.calls := by
  match ranges with
  | [] =>
    by_cases hh : r.method = "HEAD" <;> cases hs : rw.status <;>
      simp [sendRanges, copyBody, WriteHeader, Write, setContentLength, hs, hh]
  | [ra] =>
    by_cases hh : r.method = "HEAD" <;> cases hs : rw.status <;>
      simp [sendRanges, copyBody, WriteHeader, Write, setContentLength, hs, hh]
  | ra :: rb :: more =>
    by_cases hh : r.method = "HEAD" <;> cases hs : rw.status <;>
      simp [sendRanges, copyBody, WriteHeader, Write, setMultipart, hs, hh]

theorem writeError_calls (rw : ResponseWriter) (message : String) (code : Nat) :
    (writeError rw message code).calls = rw.calls := by
  cases hs : rw.status <;> simp [writeError, WriteHeader, Write, hs]

/-- Whatever the headers of the request, `http.ServeContent` is the one call recorded. -/
theorem ServeContent_calls (rw : ResponseWriter) (r : Request) (name : String)
    (content : Bytes) :
    (ServeContent rw r name content).calls = rw.calls ++ [.serveContent name content] := by
  unfold ServeContent
  cases checkPreconditions r with
  | failed => cases hs : rw.status <;> simp [WriteHeader, hs]
  | notModified => cases hs : rw.status <;> simp [WriteHeader, hs]
  | proceed rangeHeader =>
    simp only
    cases parseRange rangeHeader content.length with
    | error err =>
      cases err with
      | invalid => rw [writeError_calls]
      | noOverlap =>
        simp only
        split
        · rw [sendRanges_calls]
        · rw [writeError_calls]
    | ok ranges => rw [sendRanges_calls]

/-- A request served in full gets status 200, or 206 for a range, the content as its
body and the length of the content as its content length. -/
theorem ServeContent_full (r : Request) (name : String) (content : Bytes)
    (hm : r.method ≠ "HEAD") (hw : servedInFull r content.length = true) :
    ((ServeContent {} r name content).status = some 200 ∨
      (ServeContent {} r name content).status = some 206) ∧
    (ServeContent {} r name content).body = content ∧
    (ServeContent {} r name content).contentLength = some content.length := by
  unfold servedInFull at hw
  unfold ServeContent
  cases hc : checkPreconditions r with
  | failed => simp [hc] at hw
  | notModified => simp [hc] at hw
  | proceed rangeHeader =>
    simp only [hc] at hw
    simp only
    cases hr : parseRange rangeHeader content.length with
    | error err =>
      cases err with
      | invalid => simp [hr] at hw
      | noOverlap =>
        simp only [hr, beq_iff_eq] at hw
        simp [hw, sendRanges, copyBody, hm, WriteHeader, Write, setContentLength]
    | ok ranges =>
      simp only [hr, Bool.or_eq_true, decide_eq_true_eq] at hw
      simp only
      generalize (if content.length < sumRangesSize ranges then [] else ranges) = sent at hw
      rcases hw with h | h
      · subst h
        simp [sendRanges, copyBody, hm, WriteHeader, Write, setContentLength]
      · subst h
        simp [sendRanges, copyBody, hm, WriteHeader, Write, setContentLength]

theorem servedInFull_plain (r : Request) (size : Nat)
    (h1 : r.ifMatch = "") (h2 : r.ifNoneMatch = "") (h3 : r.range = "") :
    servedInFull r size = true := by
  simp [servedInFull, checkPreconditions, checkIfMatch, checkIfNoneMatch, parseRange,
    sumRangesSize, h1, h2, h3]

/-! ## The loops over entity tags never use up their fuel -/

theorem TrimString_length (s : List Char) : (TrimString s).length ≤ s.length := by
  unfold TrimString
  rw [List.length_reverse]
  calc ((s.dropWhile isASCIISpace).reverse.dropWhile isASCIISpace).length
      ≤ (s.dropWhile isASCIISpace).reverse.length :=
        (List.dropWhile_suffix _).length_le
    _ = (s.dropWhile isASCIISpace).length := List.length_reverse _
    _ ≤ s.length := (List.dropWhile_suffix _).length_le

theorem scanETagTail_length (l e remain : List Char)
    (h : scanETagTail l = some (e, remain)) : remain.length < l.length := by
  induction l generalizing e remain with
  | nil => simp [scanETagTail] at h
  | cons c cs ih =>
    unfold scanETagTail at h
    split at h
    · cases hs : scanETagTail cs with
      | none => simp [hs] at h
      | some p =>
        obtain ⟨e1, r1⟩ := p
        simp only [hs, Option.some.injEq, Prod.mk.injEq] at h
        have := ih e1 r1 hs
        rw [← h.2]
        simp only [List.length_cons]
        omega
    · split at h
      · simp only [Option.some.injEq, Prod.mk.injEq] at h
        rw [← h.2]
        simp
      · cases h

theorem scanETag_length (s e remain : List Char) (h : scanETag s = (e, remain))
    (he : e ≠ []) : remain.length < s.length := by
  unfold scanETag at h
  have ht := TrimString_length s
  simp only at h
  split at h
  · simp only [Prod.mk.injEq] at h
    exact absurd h.1.symm he
  · rename_i q tl hrest
    have hlen : (q :: tl).length ≤ (TrimString s).length := by
      rw [← hrest]
      split
      · simp
      · exact le_refl _
    split at h
    · cases hs : scanETagTail tl with
      | none =>
        simp only [hs, Prod.mk.injEq] at h
        exact absurd h.1.symm he
      | some p =>
        obtain ⟨e1, r1⟩ := p
        simp only [hs, Prod.mk.injEq] at h
        have := scanETagTail_length tl e1 r1 hs
        rw [← h.2]
        simp only [List.length_cons] at hlen
        omega
    · simp only [Prod.mk.injEq] at h
      exact absurd h.1.symm he

theorem checkIfMatchLoop_fuel (n : Nat) : ∀ im : List Char, im.length < n →
    checkIfMatchLoop n im = checkIfMatchLoop (im.length + 1) im := by
  induction n using Nat.strong_induction_on with
  | _ n ih =>
    intro im hlt
    cases n with
    | zero => omega
    | succ n =>
      have ht := TrimString_length im
      unfold checkIfMatchLoop
      cases htr : TrimString im with
      | nil => rfl
      | cons c cs =>
        rw [htr] at ht
        simp only [List.length_cons] at ht
        simp only
        have step : ∀ l : List Char, l.length < im.length →
            checkIfMatchLoop n l = checkIfMatchLoop im.length l := by
          intro l hl
          rw [ih n (Nat.lt_succ_self n) l (by omega), ih im.length hlt l hl]
        split
        · exact step cs (by omega)
        · split
          · rfl
          · cases hs : scanETag (c :: cs) with
            | mk e remain =>
              cases e with
              | nil => rfl
              | cons x xs =>
                have := scanETag_length (c :: cs) (x :: xs) remain hs (by simp)
                simp only [List.length_cons] at this
                exact step remain (by omega)

theorem checkIfNoneMatchLoop_fuel (n : Nat) : ∀ im : List Char, im.length < n →
    checkIfNoneMatchLoop n im = checkIfNoneMatchLoop (im.length + 1) im := by
  induction n using Nat.strong_induction_on with
  | _ n ih =>
    intro im hlt
    cases n with
    | zero => omega
    | succ n =>
      have ht := TrimString_length im
      unfold checkIfNoneMatchLoop
      cases htr : TrimString im with
      | nil => rfl
      | cons c cs =>
        rw [htr] at ht
        simp only [List.length_cons] at ht
        simp only
        have step : ∀ l : List Char, l.length < im.length →
            checkIfNoneMatchLoop n l = checkIfNoneMatchLoop im.length l := by
          intro l hl
          rw [ih n (Nat.lt_succ_self n) l (by omega), ih im.length hlt l hl]
        split
        · exact step cs (by omega)
        · split
          · rfl
          · cases hs : scanETag (c :: cs) with
            | mk e remain =>
              cases e with
              | nil => rfl
              | cons x xs =>
                have := scanETag_length (c :: cs) (x :: xs) remain hs (by simp)
                simp only [List.length_cons] at this
                exact step remain (by omega)

/-! ## Lemmas on a value the state keeps -/

theorem Group_Get_keeps (key k : String) (body : Bytes) (c : cacheServer)
    (h : keepsValue key body c) : keepsValue key body (Group.Get c k).1 := by
  obtain ⟨hb, hc⟩ := h
  cases hk : c.group.mainCache.lookup k with
  | some v =>
    simp only [Group.Get, hk]
    exact ⟨hb, hc⟩
  | none =>
    cases hf : c.s3m.fault with
    | some e =>
      simp only [Group.Get, S3Manager.Getter, hk, hf]
      exact ⟨hb, hc⟩
    | none =>
      cases hbk : c.s3m.bucket.lookup k with
      | none =>
        simp only [Group.Get, S3Manager.Getter, hk, hf, hbk]
        exact ⟨hb, hc⟩
      | some v =>
        simp only [Group.Get, S3Manager.Getter, hk, hf, hbk]
        refine ⟨hb, ?_⟩
        by_cases hkk : key = k
        · subst hkk
          rw [hb] at hbk
          cases hbk
          right
          simp [List.lookup]
        · have hne : (key == k) = false := by simpa using hkk
          simpa [List.lookup, hne] using hc

theorem PutReader_keeps (key k : String) (body v : Bytes) (c : cacheServer)
    (hk : k ≠ key) (h : keepsValue key body c) :
    keepsValue key body (S3Manager.PutReader c k v).1 := by
  obtain ⟨hb, hc⟩ := h
  have hne : (key == k) = false := by simpa using fun h => hk h.symm
  cases hf : c.s3m.fault with
  | some e =>
    simp only [S3Manager.PutReader, hf]
    exact ⟨hb, hc⟩
  | none =>
    simp only [S3Manager.PutReader, hf]
    exact ⟨by simpa [List.lookup, hne] using hb, hc⟩

theorem gpool_keeps (key : String) (body : Bytes) (c : cacheServer) (r : Request)
    (rw : ResponseWriter) (h : keepsValue key body c) :
    keepsValue key body (Recoverer c rw (gpoolServeHTTP c r rw)).1 := by
  unfold gpoolServeHTTP
  by_cases hp : HasPrefix r.path "/_groupcache/" = true
  · simp only [hp, if_true]
    cases hcut : cutAt '/' (r.path.data.drop 13) with
    | none => exact h
    | some ge =>
      obtain ⟨g, e⟩ := ge
      simp only
      by_cases hg : String.mk g = "bazelcache"
      · simp only [hg, if_true]
        have hk := Group_Get_keeps key (String.mk e) body c h
        rcases hgg : Group.Get c (String.mk e) with ⟨c1, res⟩
        rw [hgg] at hk
        cases res <;> exact hk
      · simp only [hg, if_false]
        exact h
  · simp only [hp]
    exact h

theorem handleGET_keeps (key : String) (body : Bytes) (c : cacheServer) (r : Request)
    (rw : ResponseWriter) (h : keepsValue key body c) :
    keepsValue key body (Recoverer c rw (handleGET c r rw)).1 := by
  unfold handleGET
  by_cases hp : r.path = ""
  · simp only [hp, if_true]
    exact h
  · simp only [hp, if_false]
    have hk := Group_Get_keeps key (r.path.drop 1) body c h
    rcases hg : Group.Get c (r.path.drop 1) with ⟨c1, res⟩
    rw [hg] at hk
    cases res with
    | ok v => exact hk
    | error e =>
      simp only
      by_cases hn : isStoreNotFound (errorsCause e) = true
      · simp only [hn, if_true]
        exact hk
      · simp only [hn]
        exact hk

theorem handlePUT_keeps (key : String) (body : Bytes) (c : cacheServer) (r : Request)
    (rw : ResponseWriter) (h : keepsValue key body c) (hw : r.path.drop 1 ≠ key) :
    keepsValue key body (Recoverer c rw (handlePUT c r rw)).1 := by
  unfold handlePUT
  by_cases hp : r.path = ""
  · simp only [hp, if_true]
    exact h
  · simp only [hp, if_false]
    exact PutReader_keeps key _ body _ c hw h

theorem ServeHTTP_keeps (key : String) (body : Bytes) (c : cacheServer) (r : Request)
    (rw : ResponseWriter) (h : keepsValue key body c)
    (hw : ¬ (dispatch r = .handler .handlePUT ∧ r.path.drop 1 = key)) :
    keepsValue key body (ServeHTTP c r rw).1 := by
  unfold ServeHTTP
  cases hd : dispatch r with
  | notFound => exact h
  | methodNotAllowed => exact h
  | handler hh =>
    cases hh with
    | gpool => exact gpool_keeps key body c r rw h
    | handleGET => exact handleGET_keeps key body c r rw h
    | handlePUT => exact handlePUT_keeps key body c r rw h (fun hk => hw ⟨hd, hk⟩)

theorem serveAll_keeps (key : String) (body : Bytes) (steps : List Step) (c : cacheServer)
    (h : keepsValue key body c) (hsteps : ∀ s ∈ steps, s.writesTo key = false) :
    keepsValue key body (serveAll c steps) := by
  induction steps generalizing c with
  | nil => exact h
  | cons s rest ih =>
    refine ih _ ?_ (fun x hx => hsteps x (List.mem_cons_of_mem s hx))
    have hs := hsteps s (List.mem_cons_self s rest)
    cases s with
    | request r =>
      simp only [Step.writesTo, decide_eq_false_iff_not] at hs
      exact ServeHTTP_keeps key body c r {} h hs
    | storeFault fault => exact h

theorem Group_Get_of_keeps (key : String) (body : Bytes) (c : cacheServer)
    (h : keepsValue key body c)
    (hs : c.s3m.fault = none ∨ c.group.mainCache.lookup key ≠ none) :
    (Group.Get c key).2 = .ok body := by
  obtain ⟨hb, hc⟩ := h
  unfold Group.Get S3Manager.Getter
  rcases hc with hc | hc
  · rcases hs with hf | hn
    · simp [hc, hf, hb]
    · exact absurd hc hn
  · simp [hc]

/-! ## Lemmas on `http.ServeContent` after the header is written -/

theorem sendRanges_after_header (rw : ResponseWriter) (r : Request) (content : Bytes)
    (ranges : List httpRange) (s : Nat) (hs : rw.status = some s) :
    (sendRanges rw r content ranges).status = some s ∧
    (sendRanges rw r content ranges).contentLength = rw.contentLength ∧
    rw.body <+: (sendRanges rw r content ranges).body := by
  match ranges with
  | [] =>
    by_cases hh : r.method = "HEAD" <;>
      simp [sendRanges, copyBody, WriteHeader, Write, setContentLength, hs, hh]
  | [ra] =>
    by_cases hh : r.method = "HEAD" <;>
      simp [sendRanges, copyBody, WriteHeader, Write, setContentLength, hs, hh]
  | ra :: rb :: more =>
    by_cases hh : r.method = "HEAD" <;>
      simp [sendRanges, copyBody, WriteHeader, Write, setMultipart, hs, hh]

theorem writeError_after_header (rw : ResponseWriter) (message : String) (code s : Nat)
    (hs : rw.status = some s) :
    (writeError rw message code).status = some s ∧
    (writeError rw message code).contentLength = rw.contentLength ∧
    rw.body <+: (writeError rw message code).body := by
  simp [writeError, WriteHeader, Write, hs]

theorem ServeContent_after_header (rw : ResponseWriter) (r : Request) (name : String)
    (content : Bytes) (s : Nat) (hs : rw.status = some s) :
    (ServeContent rw r name content).status = some s ∧
    (ServeContent rw r name content).contentLength = rw.contentLength ∧
    rw.body <+: (ServeContent rw r name content).body := by
  have hs1 : ({ rw with calls := rw.calls ++ [.serveContent name content] } :
      ResponseWriter).status = some s := hs
  unfold ServeContent
  cases checkPreconditions r with
  | failed => simp [WriteHeader, hs]
  | notModified => simp [WriteHeader, hs]
  | proceed rangeHeader =>
    simp only
    cases parseRange rangeHeader content.length with
    | error err =>
      cases err with
      | invalid => exact writeError_after_header _ _ _ s hs1
      | noOverlap =>
        simp only
        split
        · exact sendRanges_after_header _ r content [] s hs1
        · exact writeError_after_header _ _ _ s hs1
    | ok ranges => exact sendRanges_after_header _ r content _ s hs1

theorem ServeContent_empty_full (rw : ResponseWriter) (r : Request) (name : String) (s : Nat)
    (hs : rw.status = some s) (hw : servedInFull r 0 = true) :
    (ServeContent rw r name []).body = rw.body := by
  unfold servedInFull at hw
  unfold ServeContent
  cases hc : checkPreconditions r with
  | failed => simp [hc] at hw
  | notModified => simp [hc] at hw
  | proceed rangeHeader =>
    simp only [hc, List.length_nil] at hw
    simp only [List.length_nil]
    cases hr : parseRange rangeHeader 0 with
    | error err =>
      cases err with
      | invalid => simp [hr] at hw
      | noOverlap =>
        by_cases hh : r.method = "HEAD" <;>
          simp [sendRanges, copyBody, WriteHeader, Write, setContentLength, hs, hh]
    | ok ranges =>
      simp only [hr, Bool.or_eq_true, decide_eq_true_eq] at hw
      simp only
      generalize (if 0 < sumRangesSize ranges then [] else ranges) = sent at hw
      rcases hw with h | h
      · subst h
        by_cases hh : r.method = "HEAD" <;>
          simp [sendRanges, copyBody, WriteHeader, Write, setContentLength, hs, hh]
      · subst h
        by_cases hh : r.method = "HEAD" <;>
          simp [sendRanges, copyBody, WriteHeader, Write, setContentLength, hs, hh]

theorem httpError_fresh (message : String) (code : Nat) :
    httpError {} message code =
      { status := some code, body := bytesOf (message ++ "\n"),
        calls := [.error message code] } := by
  simp [httpError, writeError, WriteHeader, Write]

/-! ## The write path -/

/-- C1, the code at a store failure: a `PUT /cas/deadbeef` while the store rejects
requests. `PutReader` returns the error, the object is not stored, and the handler
writes nothing to the response, so the client gets status 200 and not 500. -/
theorem put_store_failure_answers_200 :
    (S3Manager.PutReader (newCacheServer { fault := some (.plain "connection refused") })
        "cas/deadbeef" [88]).2 = some (.plain "connection refused") ∧
    (ServeHTTP (newCacheServer { fault := some (.plain "connection refused") })
        { method := "PUT", path := "/cas/deadbeef", body := [88] } {}).2 = {} ∧
    finalStatus (ServeHTTP (newCacheServer { fault := some (.plain "connection refused") })
        { method := "PUT", path := "/cas/deadbeef", body := [88] } {}).2 = 200 ∧
    (ServeHTTP (newCacheServer { fault := some (.plain "connection refused") })
        { method := "PUT", path := "/cas/deadbeef", body := [88] } {}).1.s3m.bucket = [] := by
  decide

/-- C7: a `PUT` that the router sends to the write path, with a path under `/ac/` or
`/cas/`, leaves the cache tier and the log as they are; its only effect is one put on
the object store, under the path without its leading slash, which stores the body when
the store accepts it. -/
theorem put_bypasses_cache (c : cacheServer) (r : Request) (rw : ResponseWriter) (rest : String)
    (hm : r.method = "PUT")
    (hroute : HasPrefix (routePath r) "/ac/" = true ∨ HasPrefix (routePath r) "/cas/" = true)
    (hp : r.path = "/ac/" ++ rest ∨ r.path = "/cas/" ++ rest) :
    (r.path.drop 1 = "ac/" ++ rest ∨ r.path.drop 1 = "cas/" ++ rest) ∧
    (ServeHTTP c r rw).1.group = c.group ∧
    (ServeHTTP c r rw).1.log = c.log ∧
    (ServeHTTP c r rw).1.calls = c.calls ++ [.s3Put (r.path.drop 1) r.body] ∧
    (ServeHTTP c r rw).1.s3m.fault = c.s3m.fault ∧
    (ServeHTTP c r rw).1.s3m.bucket =
      (if c.s3m.fault = none then (r.path.drop 1, r.body) :: c.s3m.bucket else c.s3m.bucket) := by
  rw [serve_put c r rw hm hroute, handlePUT_eq c r rw (path_ne_empty r.path rest hp)]
  refine ⟨key_of_path r.path rest hp, ?_⟩
  simp only [Recoverer, S3Manager.PutReader]
  cases hf : c.s3m.fault <;> simp [hf]

theorem put_bypasses_cache_witness :
    ((ServeHTTP ⟨{ bucket := [("cas/old", [7])] }, { mainCache := [("cas/old", [7])] }, [], []⟩
        { method := "PUT", path := "/cas/deadbeef", body := [88] } {}).1.group =
      { mainCache := [("cas/old", [7])] }) ∧
    ((ServeHTTP ⟨{ bucket := [("cas/old", [7])] }, { mainCache := [("cas/old", [7])] }, [], []⟩
        { method := "PUT", path := "/cas/deadbeef", body := [88] } {}).1.calls =
      [.s3Put "cas/deadbeef" [88]]) ∧
    ((ServeHTTP ⟨{ bucket := [("cas/old", [7])] }, { mainCache := [("cas/old", [7])] }, [], []⟩
        { method := "PUT", path := "/cas/deadbeef", body := [88] } {}).1.s3m.bucket =
      [("cas/deadbeef", [88]), ("cas/old", [7])]) := by
  have h := put_bypasses_cache
    ⟨{ bucket := [("cas/old", [7])] }, { mainCache := [("cas/old", [7])] }, [], []⟩
    { method := "PUT", path := "/cas/deadbeef", body := [88] } {} "deadbeef" rfl
    (Or.inr rfl) (Or.inr rfl)
  exact ⟨h.2.1, by decide, by decide⟩

/-! ## The read path -/

/-- C2, the code at a store failure: a `GET /cas/deadbeef` whose lookup fails with an
error that is not a not-found. The status is 500, and after `http.Error` the handler
goes on to `http.ServeContent`: the error response is not the only call it makes. -/
theorem get_failure_also_serves_content :
    (Group.Get (newCacheServer { fault := some (.plain "connection refused") })
        "cas/deadbeef").2 = .error (.plain "connection refused") ∧
    isStoreNotFound (errorsCause (.plain "connection refused")) = false ∧
    (ServeHTTP (newCacheServer { fault := some (.plain "connection refused") })
        { method := "GET", path := "/cas/deadbeef" } {}).2.status = some 500 ∧
    (ServeHTTP (newCacheServer { fault := some (.plain "connection refused") })
        { method := "GET", path := "/cas/deadbeef" } {}).2.calls =
      [.error "failed to retrieve key" 500, .serveContent "cas/deadbeef" []] := by
  refine ⟨rfl, rfl, ?_, ?_⟩ <;> decide

/-- C4: a `GET` under `/ac/` or `/cas/` whose lookup fails with an error whose root
cause is a store request failure with status 404, however many times `errors.Wrap` has
wrapped it, is answered 404 by `http.NotFound` alone: no content is served and the
handler logs nothing. -/
theorem get_store_not_found (c c1 : cacheServer) (r : Request) (rest : String)
    (wraps : List String) (message : String)
    (hm : r.method = "GET")
    (hroute : HasPrefix (routePath r) "/ac/" = true ∨ HasPrefix (routePath r) "/cas/" = true)
    (hp : r.path = "/ac/" ++ rest ∨ r.path = "/cas/" ++ rest)
    (hget : Group.Get c (r.path.drop 1) =
      (c1, .error (wrappedBy wraps (.requestFailure 404 message)))) :
    ServeHTTP c r {} = (c1, httpNotFound {}) ∧
    (ServeHTTP c r {}).2.status = some 404 ∧
    (ServeHTTP c r {}).2.calls = [.notFound] ∧
    (ServeHTTP c r {}).1.log = c.log := by
  have hroot : errorsCause (wrappedBy wraps (.requestFailure 404 message)) =
      .requestFailure 404 message :=
    errorsCause_wrappedBy wraps _ (fun m e h => by cases h)
  have hnf : isStoreNotFound (errorsCause (wrappedBy wraps (.requestFailure 404 message)))
      = true := by
    rw [hroot]
    rfl
  have hh := handleGET_not_found c c1 r {} _ (path_ne_empty r.path rest hp) hget hnf
  have hl := Group_Get_log c (r.path.drop 1)
  rw [hget] at hl
  rw [serve_get c r {} hm hroute, hh]
  exact ⟨rfl, rfl, rfl, hl⟩

theorem get_store_not_found_witness :
    (ServeHTTP
        (newCacheServer { fault := some (.wrapped "s3 get" (.wrapped "GetObject"
          (.requestFailure 404 "NoSuchKey"))) })
        { method := "GET", path := "/cas/absentkey" } {}).2.status = some 404 ∧
    (ServeHTTP
        (newCacheServer { fault := some (.wrapped "s3 get" (.wrapped "GetObject"
          (.requestFailure 404 "NoSuchKey"))) })
        { method := "GET", path := "/cas/absentkey" } {}).2.calls = [.notFound] ∧
    (ServeHTTP
        (newCacheServer { fault := some (.wrapped "s3 get" (.wrapped "GetObject"
          (.requestFailure 404 "NoSuchKey"))) })
        { method := "GET", path := "/cas/absentkey" } {}).1.log = [] :=
  ⟨(get_store_not_found
    (newCacheServer { fault := some (.wrapped "s3 get" (.wrapped "GetObject"
      (.requestFailure 404 "NoSuchKey"))) })
    ⟨{ fault := some (.wrapped "s3 get" (.wrapped "GetObject"
        (.requestFailure 404 "NoSuchKey"))) }, {},
      [.groupGet "cas/absentkey", .s3Get "cas/absentkey"], []⟩
    { method := "GET", path := "/cas/absentkey" } "absentkey" ["s3 get", "GetObject"] "NoSuchKey"
    rfl (Or.inr rfl) (Or.inr rfl) rfl).2.1, by decide, by decide⟩

/-- C8 as stated fails: with `[1, 2, 3]` stored under `ac/k`, the lookup of a
`GET /ac/k` succeeds, but with the header `Range: bytes=0-0` the answer is 206 with the
one byte `[1]`, with `If-None-Match: *` it is 304 without body, and with `If-Match: x`
it is 412 without body. -/
theorem get_hit_with_range_or_condition :
    (Group.Get ⟨{ bucket := [("ac/k", [1, 2, 3])] }, {}, [], []⟩ "ac/k").2 = .ok [1, 2, 3] ∧
    (ServeHTTP ⟨{ bucket := [("ac/k", [1, 2, 3])] }, {}, [], []⟩
        { method := "GET", path := "/ac/k", range := "bytes=0-0" } {}).2.status = some 206 ∧
    (ServeHTTP ⟨{ bucket := [("ac/k", [1, 2, 3])] }, {}, [], []⟩
        { method := "GET", path := "/ac/k", range := "bytes=0-0" } {}).2.body = [1] ∧
    (ServeHTTP ⟨{ bucket := [("ac/k", [1, 2, 3])] }, {}, [], []⟩
        { method := "GET", path := "/ac/k", range := "bytes=0-0" } {}).2.contentLength
      = some 1 ∧
    (ServeHTTP ⟨{ bucket := [("ac/k", [1, 2, 3])] }, {}, [], []⟩
        { method := "GET", path := "/ac/k", ifNoneMatch := "*" } {}).2.status = some 304 ∧
    (ServeHTTP ⟨{ bucket := [("ac/k", [1, 2, 3])] }, {}, [], []⟩
        { method := "GET", path := "/ac/k", ifNoneMatch := "*" } {}).2.body = [] ∧
    (ServeHTTP ⟨{ bucket := [("ac/k", [1, 2, 3])] }, {}, [], []⟩
        { method := "GET", path := "/ac/k", ifMatch := "x" } {}).2.status = some 412 ∧
    (ServeHTTP ⟨{ bucket := [("ac/k", [1, 2, 3])] }, {}, [], []⟩
        { method := "GET", path := "/ac/k", ifMatch := "x" } {}).2.body = [] := by
  refine ⟨rfl, ?_, ?_, ?_, ?_, ?_, ?_, ?_⟩ <;> decide

/-- C8, amended: a `GET` under `/ac/` or `/cas/` whose lookup succeeds looks up the path
without its leading slash (the namespace and the remainder), which is the key a `PUT`
on the same path writes, and hands the value to `http.ServeContent`; when that serves
the request in full (its `If-Match` does not fail, its `If-None-Match` does not match,
and the byte range applied, if any, is the whole value), the response has a successful
status (200, or 206 for a range), the bytes of the value as its body and their number
as its content length. -/
theorem get_hit_serves_value (c c1 : cacheServer) (r : Request) (rest : String) (v body : Bytes)
    (hm : r.method = "GET")
    (hroute : HasPrefix (routePath r) "/ac/" = true ∨ HasPrefix (routePath r) "/cas/" = true)
    (hp : r.path = "/ac/" ++ rest ∨ r.path = "/cas/" ++ rest)
    (hget : Group.Get c (r.path.drop 1) = (c1, .ok v)) :
    (r.path.drop 1 = "ac/" ++ rest ∨ r.path.drop 1 = "cas/" ++ rest) ∧
    (∃ more, (ServeHTTP c r {}).1.calls = c.calls ++ BackendCall.groupGet (r.path.drop 1) :: more) ∧
    (ServeHTTP c { r with method := "PUT", body := body } {}).1.calls =
      c.calls ++ [.s3Put (r.path.drop 1) body] ∧
    (ServeHTTP c r {}).1 = c1 ∧
    (ServeHTTP c r {}).2.calls = [.serveContent (r.path.drop 1) v] ∧
    (servedInFull r v.length = true →
      ((ServeHTTP c r {}).2.status = some 200 ∨ (ServeHTTP c r {}).2.status = some 206) ∧
      (ServeHTTP c r {}).2.body = v ∧
      (ServeHTTP c r {}).2.contentLength = some v.length) := by
  have hne := path_ne_empty r.path rest hp
  have hh := handleGET_ok c c1 r {} v hne hget
  have hc := Group_Get_calls c (r.path.drop 1)
  rw [hget] at hc
  have hput := serve_put c { r with method := "PUT", body := body } {} rfl hroute
  have hput2 := handlePUT_eq c { r with method := "PUT", body := body } {} hne
  have hnh : r.method ≠ "HEAD" := by
    rw [hm]
    decide
  rw [serve_get c r {} hm hroute, hh, hput, hput2]
  refine ⟨key_of_path r.path rest hp, hc, ?_, rfl, ?_, ?_⟩
  · simp only [Recoverer, S3Manager.PutReader]
    cases hf : c.s3m.fault <;> simp
  · simp only [Recoverer]
    rw [ServeContent_calls]
    rfl
  · intro hwhole
    exact ServeContent_full r (r.path.drop 1) v hnh hwhole

theorem get_hit_serves_value_witness :
    (ServeHTTP ⟨{ bucket := [("ac/k", [1, 2, 3])] }, {}, [], []⟩
      { method := "GET", path := "/ac/k", ifMatch := "*", range := "bytes=0-" } {}).2.status
      = some 206 ∧
    (ServeHTTP ⟨{ bucket := [("ac/k", [1, 2, 3])] }, {}, [], []⟩
      { method := "GET", path := "/ac/k", ifMatch := "*", range := "bytes=0-" } {}).2.body
      = [1, 2, 3] ∧
    (ServeHTTP ⟨{ bucket := [("ac/k", [1, 2, 3])] }, {}, [], []⟩
      { method := "GET", path := "/ac/k", ifMatch := "*", range := "bytes=0-" }
      {}).2.contentLength = some 3 := by
  have h := (get_hit_serves_value ⟨{ bucket := [("ac/k", [1, 2, 3])] }, {}, [], []⟩
    ⟨{ bucket := [("ac/k", [1, 2, 3])] }, { mainCache := [("ac/k", [1, 2, 3])] },
      [.groupGet "ac/k", .s3Get "ac/k"], []⟩
    { method := "GET", path := "/ac/k", ifMatch := "*", range := "bytes=0-" } "k" [1, 2, 3] []
    rfl (Or.inl rfl) (Or.inl rfl) rfl).2.2.2.2.2 (by decide)
  exact ⟨by decide, h.2.1, h.2.2⟩

/-- C10: for one `GET` request under `/ac/` or `/cas/` and any two lookups that fail with
errors that are not not-founds, in whatever states, the handler sends the same
response: status 500 and the fixed text first, with nothing of either error in it; a request served in full gets the fixed text and no more. -/
theorem get_failure_response_hides_error (c c1 d d1 : cacheServer) (r : Request)
    (rest : String) (e f : GoError)
    (hm : r.method = "GET")
    (hroute : HasPrefix (routePath r) "/ac/" = true ∨ HasPrefix (routePath r) "/cas/" = true)
    (hp : r.path = "/ac/" ++ rest ∨ r.path = "/cas/" ++ rest)
    (hc : Group.Get c (r.path.drop 1) = (c1, .error e))
    (hd : Group.Get d (r.path.drop 1) = (d1, .error f))
    (he : isStoreNotFound (errorsCause e) = false)
    (hf : isStoreNotFound (errorsCause f) = false) :
    (ServeHTTP c r {}).2 = (ServeHTTP d r {}).2 ∧
    (ServeHTTP c r {}).2.status = some 500 ∧
    bytesOf "failed to retrieve key\n" <+: (ServeHTTP c r {}).2.body ∧
    (servedInFull r 0 = true →
      (ServeHTTP c r {}).2.body = bytesOf "failed to retrieve key\n") ∧
    (ServeHTTP c r {}).2.contentLength = none := by
  have hne := path_ne_empty r.path rest hp
  rw [serve_get c r {} hm hroute, serve_get d r {} hm hroute,
    handleGET_failure c c1 r {} e hne hc he, handleGET_failure d d1 r {} f hne hd hf]
  rw [httpError_fresh]
  have hserve := ServeContent_after_header
    { status := some 500, body := bytesOf ("failed to retrieve key" ++ "\n"),
      calls := [.error "failed to retrieve key" 500] } r (r.path.drop 1) [] 500 rfl
  exact ⟨rfl, hserve.1, hserve.2.2,
    fun hw => ServeContent_empty_full _ r (r.path.drop 1) 500 rfl hw, hserve.2.1⟩

theorem get_failure_response_hides_error_witness :
    (ServeHTTP (newCacheServer { fault := some (.plain "dial tcp 10.0.0.7:9000: refused") })
        { method := "GET", path := "/cas/deadbeef", range := "bytes=0-9" } {}).2 =
      (ServeHTTP (newCacheServer { fault := some (.requestFailure 403 "AccessDenied") })
        { method := "GET", path := "/cas/deadbeef", range := "bytes=0-9" } {}).2 :=
  (get_failure_response_hides_error
    (newCacheServer { fault := some (.plain "dial tcp 10.0.0.7:9000: refused") })
    ⟨{ fault := some (.plain "dial tcp 10.0.0.7:9000: refused") }, {},
      [.groupGet "cas/deadbeef", .s3Get "cas/deadbeef"], []⟩
    (newCacheServer { fault := some (.requestFailure 403 "AccessDenied") })
    ⟨{ fault := some (.requestFailure 403 "AccessDenied") }, {},
      [.groupGet "cas/deadbeef", .s3Get "cas/deadbeef"], []⟩
    { method := "GET", path := "/cas/deadbeef", range := "bytes=0-9" } "deadbeef"
    (.plain "dial tcp 10.0.0.7:9000: refused") (.requestFailure 403 "AccessDenied")
    rfl (Or.inr rfl) (Or.inr rfl) rfl rfl rfl rfl).1

/-! ## Write, then read -/

/-- C3 as stated fails, in two ways. In the state reached by `PUT /ac/k` of `[1]` and a
`GET /ac/k` (which caches `[1]`), a `PUT /ac/k` of `[2]` is accepted by the store and
the `GET` that follows still returns `[1]`, the entry of the cache tier. And on a new
server, after an accepted `PUT /ac/k` of `[1, 2, 3]`, a `GET /ac/k` with the header
`Range: bytes=0-0` returns the one byte `[1]`. -/
theorem put_get_returns_stale_entry :
    ¬ (∀ (c : cacheServer) (path : String) (body : Bytes), Reachable c →
        (HasPrefix path "/ac/" = true ∨ HasPrefix path "/cas/" = true) →
        (S3Manager.PutReader c (path.drop 1) body).2 = none →
        (ServeHTTP (ServeHTTP c { method := "PUT", path := path, body := body } {}).1
          { method := "GET", path := path } {}).2.body = body) ∧
    (S3Manager.PutReader (newCacheServer {}) "ac/k" [1, 2, 3]).2 = none ∧
    (ServeHTTP (ServeHTTP (newCacheServer {})
          { method := "PUT", path := "/ac/k", body := [1, 2, 3] } {}).1
        { method := "GET", path := "/ac/k", range := "bytes=0-0" } {}).2.body = [1] := by
  refine ⟨fun h => ?_, rfl, by decide⟩
  have hr : Reachable
      (ServeHTTP (ServeHTTP (newCacheServer {})
          { method := "PUT", path := "/ac/k", body := [1] } {}).1
        { method := "GET", path := "/ac/k" } {}).1 :=
    Reachable.step _ (.request { method := "GET", path := "/ac/k" })
      (Reachable.step _ (.request { method := "PUT", path := "/ac/k", body := [1] })
        (Reachable.init _))
  have h2 := h _ "/ac/k" [2] hr (by decide) (by decide)
  revert h2
  decide

/-- C3, amended: when the cache tier holds no entry for the key, or holds the very bytes
being written, a `PUT` under `/ac/` or `/cas/` that the store accepts, followed by any
steps none of which is a `PUT` to that key (other requests, the store going down or
coming back), and then by a `GET` of the same path, returns exactly the bytes written,
with a successful status (200, or 206 for a range), provided that at the `GET` the store
answers requests or the cache tier already holds the key, and that `http.ServeContent`
serves the `GET` in full (its `If-Match` does not fail, its `If-None-Match` does not
match, and the byte range applied, if any, is the whole content). -/
theorem put_then_get_roundtrip (c : cacheServer) (p g : Request) (between : List Step)
    (rest : String)
    (hpm : p.method = "PUT")
    (hproute : HasPrefix (routePath p) "/ac/" = true ∨ HasPrefix (routePath p) "/cas/" = true)
    (hpp : p.path = "/ac/" ++ rest ∨ p.path = "/cas/" ++ rest)
    (hacc : (S3Manager.PutReader c (p.path.drop 1) p.body).2 = none)
    (hcache : c.group.mainCache.lookup (p.path.drop 1) = none ∨
      c.group.mainCache.lookup (p.path.drop 1) = some p.body)
    (hbetween : ∀ s ∈ between, s.writesTo (p.path.drop 1) = false)
    (hserving : (serveAll (ServeHTTP c p {}).1 between).s3m.fault = none ∨
      (serveAll (ServeHTTP c p {}).1 between).group.mainCache.lookup (p.path.drop 1) ≠ none)
    (hgm : g.method = "GET")
    (hgroute : HasPrefix (routePath g) "/ac/" = true ∨ HasPrefix (routePath g) "/cas/" = true)
    (hgp : g.path = p.path)
    (hwhole : servedInFull g p.body.length = true) :
    ((ServeHTTP (serveAll (ServeHTTP c p {}).1 between) g {}).2.status = some 200 ∨
      (ServeHTTP (serveAll (ServeHTTP c p {}).1 between) g {}).2.status = some 206) ∧
    (ServeHTTP (serveAll (ServeHTTP c p {}).1 between) g {}).2.body = p.body ∧
    (ServeHTTP (serveAll (ServeHTTP c p {}).1 between) g {}).2.contentLength =
      some p.body.length := by
  have hne := path_ne_empty p.path rest hpp
  have hf : c.s3m.fault = none := by
    unfold S3Manager.PutReader at hacc
    cases hfault : c.s3m.fault with
    | none => rfl
    | some e => simp [hfault] at hacc
  have h0 : keepsValue (p.path.drop 1) p.body (ServeHTTP c p {}).1 := by
    rw [serve_put c p {} hpm hproute, handlePUT_eq c p {} hne]
    simp only [Recoverer, S3Manager.PutReader, hf]
    exact ⟨by simp [List.lookup], hcache⟩
  have h1 := serveAll_keeps (p.path.drop 1) p.body between _ h0 hbetween
  have hget := Group_Get_of_keeps (p.path.drop 1) p.body _ h1 hserving
  have hgne : g.path ≠ "" := hgp ▸ hne
  have hnh : g.method ≠ "HEAD" := by
    rw [hgm]
    decide
  rcases hg : Group.Get (serveAll (ServeHTTP c p {}).1 between) (g.path.drop 1) with ⟨c1, res⟩
  have hres : res = .ok p.body := by
    rw [hgp] at hg
    rw [hg] at hget
    exact hget
  subst hres
  rw [serve_get _ g {} hgm hgroute, handleGET_ok _ c1 g {} p.body hgne hg]
  exact ServeContent_full g (g.path.drop 1) p.body hnh hwhole

theorem put_then_get_roundtrip_witness :
    (ServeHTTP (serveAll (ServeHTTP (newCacheServer {})
          { method := "PUT", path := "/cas/deadbeef", body := [88] } {}).1
        [.request { method := "PUT", path := "/cas/other", body := [1] },
         .request { method := "GET", path := "/cas/other" },
         .request { method := "GET", path := "/cas/deadbeef", range := "bytes=0-0" },
         .storeFault (some (.plain "connection refused")),
         .request { method := "GET", path := "/_groupcache" }])
      { method := "GET", path := "/cas/deadbeef" } {}).2.body = [88] ∧
    (ServeHTTP (serveAll (ServeHTTP (newCacheServer {})
          { method := "PUT", path := "/cas/deadbeef", body := [88] } {}).1
        [.request { method := "PUT", path := "/cas/other", body := [1] },
         .request { method := "GET", path := "/cas/other" },
         .request { method := "GET", path := "/cas/deadbeef", range := "bytes=0-0" },
         .storeFault (some (.plain "connection refused")),
         .request { method := "GET", path := "/_groupcache" }])
      { method := "GET", path := "/cas/deadbeef" } {}).2.contentLength = some 1 :=
  (put_then_get_roundtrip (newCacheServer {})
    { method := "PUT", path := "/cas/deadbeef", body := [88] }
    { method := "GET", path := "/cas/deadbeef" }
    [.request { method := "PUT", path := "/cas/other", body := [1] },
     .request { method := "GET", path := "/cas/other" },
     .request { method := "GET", path := "/cas/deadbeef", range := "bytes=0-0" },
     .storeFault (some (.plain "connection refused")),
     .request { method := "GET", path := "/_groupcache" }]
    "deadbeef" rfl (Or.inr rfl) (Or.inr rfl) rfl (Or.inl rfl) (by decide) (Or.inr (by decide))
    rfl (Or.inr rfl) rfl (by decide)).2

/-! ## Routing -/

/-- The peer route as the server answers it: a request whose URL path is `/_groupcache`
reaches the pool, which panics because the path does not begin with its base path
`/_groupcache/`; `middleware.Recoverer` answers 500 and the state is untouched. -/
theorem peer_route_answers_500 (c : cacheServer) (r : Request)
    (hm : r.method ∈ mALL) (hp : r.path = "/_groupcache") (hraw : r.rawPath = "") :
    ServeHTTP c r {} = (c, WriteHeader {} 500) := by
  have hroute : routePath r = "/_groupcache" := by simp [routePath, hraw, hp]
  have hd : dispatch r = .handler .gpool := by
    rw [dispatch_eq]
    simp [dispatchTable, hm, hroute]
  have hpre : HasPrefix r.path "/_groupcache/" = false := by
    rw [hp]
    decide
  simp [ServeHTTP, hd, gpoolServeHTTP, hpre, Recoverer]

/-- C5 as stated fails, in two ways. A request for `/_groupcache` with a method the
router does not know is answered 405 and does not reach the peer handler. And the
router matches `r.URL.RawPath` when the URL has one: a `GET` for `/%61c/k`, whose
`r.URL.Path` is `/ac/k`, is answered 404 and does not reach the read path. -/
theorem unknown_method_on_peer_path :
    dispatch { method := "PURGE", path := "/_groupcache" } = .methodNotAllowed ∧
    ¬ (∀ r : Request, r.path = "/_groupcache" → dispatch r = .handler .gpool) ∧
    dispatch { method := "GET", path := "/ac/k", rawPath := "/%61c/k" } = .notFound ∧
    ¬ (∀ r : Request, r.method = "GET" → HasPrefix r.path "/ac/" = true →
        dispatch r = .handler .handleGET) := by
  refine ⟨by decide, fun h => ?_, by decide, fun h => ?_⟩
  · have h2 := h { method := "PURGE", path := "/_groupcache" } rfl
    revert h2
    decide
  · have h2 := h { method := "GET", path := "/ac/k", rawPath := "/%61c/k" } rfl (by decide)
    revert h2
    decide

/-- C5, amended: for every method and every path the router routes on (`r.URL.RawPath`
when it is set, `r.URL.Path` otherwise) the dispatch of `ServeHTTP` is the table.
`/_groupcache` with one of the nine methods the router knows goes to the peer handler;
`GET` or `HEAD` under `/ac/` or `/cas/` goes to the read path; `PUT` under `/ac/` or
`/cas/` goes to the write path; every other combination is answered 404 or 405 and
leaves the state of the cache tier and of the store, and the record of calls on them,
untouched. -/
theorem dispatch_follows_table (c : cacheServer) (r : Request) :
    dispatch r = dispatchTable r ∧
    (r.method ∈ mALL → routePath r = "/_groupcache" →
      ServeHTTP c r {} = Recoverer c {} (gpoolServeHTTP c r {})) ∧
    ((r.method = "GET" ∨ r.method = "HEAD") →
      (HasPrefix (routePath r) "/ac/" = true ∨ HasPrefix (routePath r) "/cas/" = true) →
      ServeHTTP c r {} = Recoverer c {} (handleGET c r {})) ∧
    (r.method = "PUT" →
      (HasPrefix (routePath r) "/ac/" = true ∨ HasPrefix (routePath r) "/cas/" = true) →
      ServeHTTP c r {} = Recoverer c {} (handlePUT c r {})) ∧
    (¬ (r.method ∈ mALL ∧ routePath r = "/_groupcache") →
      ¬ ((r.method = "GET" ∨ r.method = "HEAD") ∧
        (HasPrefix (routePath r) "/ac/" = true ∨ HasPrefix (routePath r) "/cas/" = true)) →
      ¬ (r.method = "PUT" ∧
        (HasPrefix (routePath r) "/ac/" = true ∨ HasPrefix (routePath r) "/cas/" = true)) →
      (ServeHTTP c r {}).1 = c ∧
      ((ServeHTTP c r {}).2.status = some 404 ∨ (ServeHTTP c r {}).2.status = some 405)) := by
  refine ⟨dispatch_eq r, ?_, ?_, ?_, ?_⟩
  · intro hm hp
    simp [ServeHTTP, dispatch_eq, dispatchTable, hm, hp]
  · intro hm hn
    have hm2 : r.method ∈ mALL := by
      rcases hm with h | h <;> rw [h] <;> decide
    have hg := not_peer_path (routePath r) hn
    simp [ServeHTTP, dispatch_eq, dispatchTable, hm2, hg, hm, hn]
  · intro hm hn
    exact serve_put c r {} hm hn
  · intro h1 h2 h3
    by_cases hm : mALL.contains r.method = true
    · have hm1 : r.method ∈ mALL := by simpa using hm
      have hg : routePath r ≠ "/_groupcache" := fun hg => h1 ⟨hm1, hg⟩
      by_cases hn : HasPrefix (routePath r) "/ac/" = true ∨ HasPrefix (routePath r) "/cas/" = true
      · have hd : dispatch r = .methodNotAllowed := by
          rw [dispatch_eq]
          simp only [dispatchTable, hm, hg, if_true, if_false]
          rw [if_neg h2, if_neg h3, if_pos hn]
        simp [ServeHTTP, hd, methodNotAllowedHandler, WriteHeader, Write]
      · have hd : dispatch r = .notFound := by
          rw [dispatch_eq]
          simp only [dispatchTable, hm, hg, if_true, if_false]
          rw [if_neg h2, if_neg h3, if_neg hn]
        simp [ServeHTTP, hd, httpNotFound, writeError, WriteHeader, Write]
    · have hd : dispatch r = .methodNotAllowed := by
        rw [dispatch_eq]
        simp only [dispatchTable, hm]
        rfl
      simp [ServeHTTP, hd, methodNotAllowedHandler, WriteHeader, Write]

theorem dispatch_follows_table_witness :
    dispatch { method := "POST", path := "/ac/k", body := [1] } = .methodNotAllowed ∧
    (ServeHTTP (newCacheServer {}) { method := "POST", path := "/ac/k", body := [1] } {}).1 =
      newCacheServer {} ∧
    ((ServeHTTP (newCacheServer {})
        { method := "POST", path := "/ac/k", body := [1] } {}).2.status = some 404 ∨
      (ServeHTTP (newCacheServer {})
        { method := "POST", path := "/ac/k", body := [1] } {}).2.status = some 405) :=
  ⟨by decide,
    (dispatch_follows_table (newCacheServer {})
      { method := "POST", path := "/ac/k", body := [1] }).2.2.2.2
      (by decide) (by decide) (by decide)⟩

theorem checkPeers_fatal (urlParse : String → Option String) (peers : List String)
    (h : ∃ p ∈ peers, (urlParse p).isSome = true) :
    ∃ e, checkPeers urlParse peers = .error e := by
  induction peers with
  | nil => simp at h
  | cons p ps ih =>
    unfold checkPeers
    cases hp : urlParse p with
    | some err => exact ⟨_, rfl⟩
    | none =>
      simp only
      apply ih
      obtain ⟨q, hq, hs⟩ := h
      rcases List.mem_cons.mp hq with rfl | hq
      · simp [hp] at hs
      · exact ⟨q, hq, hs⟩

theorem stringsSplit_length_pos (s : String) (sep : Char) : (stringsSplit s sep).length > 0 := by
  unfold stringsSplit
  rw [List.length_map]
  cases h : s.data with
  | nil => simp [splitChars]
  | cons c cs =>
    unfold splitChars
    split
    · simp
    · split <;> simp

/-! ## Startup -/

/-- C6: when the bucket is empty, or the self URL does not parse, or both the peer list
and the discovery name are given, or one of the explicit peers does not parse,
`parseArgs` ends in a fatal error and `main` ends with it: nothing of the startup,
the binding of the listener included, takes place. -/
theorem bad_flags_are_fatal (urlParse : String → Option String) (f : Flags)
    (h : f.bucket = "" ∨ (urlParse f.self).isSome = true ∨
      (f.manualPeers ≠ "" ∧ f.srvDNSName ≠ "") ∨
      ∃ p ∈ stringsSplit f.manualPeers ',', (urlParse p).isSome = true) :
    ∃ e, parseArgs urlParse f = .error e ∧ main urlParse f = .error e := by
  have key : ∃ e, parseArgs urlParse f = .error e := by
    unfold parseArgs
    by_cases hb : f.bucket = ""
    · exact ⟨.bucketRequired, by simp [hb]⟩
    · simp only [hb, if_false]
      cases hs : urlParse f.self with
      | some err => exact ⟨_, rfl⟩
      | none =>
        simp only
        by_cases hx : f.manualPeers ≠ "" ∧ f.srvDNSName ≠ ""
        · exact ⟨_, by rw [if_pos hx]⟩
        · rw [if_neg hx, if_pos (stringsSplit_length_pos _ _)]
          apply checkPeers_fatal
          rcases h with h | h | h | h
          · exact absurd h hb
          · simp [hs] at h
          · exact absurd h hx
          · exact h
  obtain ⟨e, he⟩ := key
  exact ⟨e, he, by simp [main, he]⟩

theorem bad_flags_are_fatal_witness :
    main (fun s => if s.data.head? = some ':' then some "missing protocol scheme" else none)
      { bucket := "b", self := "http://h:8080", manualPeers := "http://h2:8080,:9000" }
      = .error (.peerInvalid ":9000") := by
  obtain ⟨e, he, hm⟩ := bad_flags_are_fatal
    (fun s => if s.data.head? = some ':' then some "missing protocol scheme" else none)
    { bucket := "b", self := "http://h:8080", manualPeers := "http://h2:8080,:9000" }
    (Or.inr (Or.inr (Or.inr ⟨":9000", by decide, by decide⟩)))
  rw [hm]
  have he2 : parseArgs
      (fun s => if s.data.head? = some ':' then some "missing protocol scheme" else none)
      { bucket := "b", self := "http://h:8080", manualPeers := "http://h2:8080,:9000" }
      = .error (.peerInvalid ":9000") := rfl
  rw [he2] at he
  cases he
  rfl

/-- C9: with a non-empty explicit peer list and flags that pass `parseArgs`, `main`
hands the cache tier one peer set, once: the pieces of the peer list between its
commas, in order, followed by the self address. The self address is a member of it. -/
theorem static_peers_then_self (urlParse : String → Option String) (f : Flags)
    (hp : f.manualPeers ≠ "") (hok : parseArgs urlParse f = .ok ()) :
    main urlParse f = .ok [.newS3 f.bucket, .newGroup, .newHTTPPool f.self,
      .setPeers (stringsSplit f.manualPeers ',' ++ [f.self]), .listenAndServe f.bind] ∧
    f.self ∈ stringsSplit f.manualPeers ',' ++ [f.self] := by
  refine ⟨?_, by simp⟩
  simp [main, hok, hp, StaticPeers]

theorem static_peers_then_self_witness :
    main (fun _ => none)
      { bucket := "b", self := "http://h:8080", manualPeers := "http://h2:8080,http://h3:8080" }
      = .ok [.newS3 "b", .newGroup, .newHTTPPool "http://h:8080",
          .setPeers ["http://h2:8080", "http://h3:8080", "http://h:8080"],
          .listenAndServe "127.0.0.1:8080"] :=
  (static_peers_then_self (fun _ => none)
    { bucket := "b", self := "http://h:8080", manualPeers := "http://h2:8080,http://h3:8080" }
    (by decide) rfl).1

end BazelCache
